import Mathlib

/-!
Verification development for the seishiro action-dispatch engine.

The definitions below are a shallow embedding of the TypeScript sources:
`src/lib/actions.ts` (newest class, the one with `context_manager` and the
cached `BookRegistry`), the Map-backed `RegistryBuilder`, the newest
`PolicyBuilder` (the one holding `parsed_min` / `parsed_now` /
`skip_middleware_context`), `MessageBuilder` (`src/lib/message.ts`),
`formatKey` (`src/utils/format-key.ts`) and `extractLanguage`
(`src/utils/extract-lang.ts`).

JavaScript dynamic values are modelled by the inductive `JSVal`.
Asynchronous handlers that may throw or reject are modelled as total
functions returning `Except Unit JSVal` (`.error ()` models a throw or a
rejected promise).  Machine-level concerns that the engine delegates to
the Node runtime (SHA-256, AES-256-CTR) are taken as explicit function
parameters of `BookRegistry`, exactly where the source calls into the
`crypto` module.
-/

/-- Model of a JavaScript runtime value as far as the dispatcher inspects
one: `null`, `undefined`, booleans, (integer) numbers, strings, arrays and
plain objects.  Objects are association lists in property-insertion order;
the sources never create objects with duplicate keys.  Function values and
non-integer numbers are never inspected by the engine and are omitted. -/
inductive JSVal where
  | null : JSVal
  | undef : JSVal
  | bool : Bool → JSVal
  | num : Int → JSVal
  | str : String → JSVal
  | arr : List JSVal → JSVal
  | obj : List (String × JSVal) → JSVal
deriving Repr

/-- JavaScript truthiness: `null`, `undefined`, `false`, `0` and `""` are
falsy; arrays and objects (even empty ones) are truthy. -/
def JSVal.truthy : JSVal → Bool
  | .null => false
  | .undef => false
  | .bool b => b
  | .num n => n != 0
  | .str s => s != ""
  | .arr _ => true
  | .obj _ => true

/-- Property access `v[k]` / `v?.k`: reading a named property of a
non-object (or a missing property) yields `undefined`. -/
def JSVal.get : JSVal → String → JSVal
  | .obj fields, k =>
    match fields.lookup k with
    | some v => v
    | none => .undef
  | _, _ => JSVal.undef

/-- The JavaScript test `typeof v === "object"`: true for `null`, arrays
and plain objects. -/
def JSVal.typeofObject : JSVal → Bool
  | .null => true
  | .arr _ => true
  | .obj _ => true
  | _ => false

/-- `Array.isArray`. -/
def JSVal.isArray : JSVal → Bool
  | .arr _ => true
  | _ => false

/-- Indexing with a number, `v[i]`: element of an array, `undefined`
out of range or on non-indexable values (object numeric-string keys are
looked up, as JavaScript coerces the index). -/
def JSVal.idx : JSVal → Nat → JSVal
  | .arr xs, i =>
    match xs.get? i with
    | some v => v
    | none => .undef
  | .obj fields, i =>
    match fields.lookup (toString i) with
    | some v => v
    | none => .undef
  | _, _ => JSVal.undef

/-- `Object.keys` of a value: property names of a plain object, index
strings of an array, and the empty list otherwise (the engine only calls
this on objects coming from handler results). -/
def JSVal.keys : JSVal → List String
  | .obj fields => fields.map Prod.fst
  | .arr xs => (List.range xs.length).map toString
  | .str s => (List.range s.length).map toString
  | _ => []

/-- Whitespace stripped by `String.prototype.trim` (the sources only ever
meet ASCII whitespace here). -/
def jsWhitespace (c : Char) : Bool :=
  c = ' ' || c = '\t' || c = '\n' || c = '\r'

/-- Trim of a character list: drop leading and trailing whitespace. -/
def trimList (cs : List Char) : List Char :=
  ((cs.dropWhile jsWhitespace).reverse.dropWhile jsWhitespace).reverse

/-- `String.prototype.trim`. -/
def jsTrim (s : String) : String :=
  String.mk (trimList s.data)

/-- The short-circuiting `a || b` on strings: `a` if truthy (non-empty),
else `b`. -/
def jsOrStr (a b : String) : String :=
  if a = "" then b else a

/-- `s.split(sep)` for a single-character separator, on character lists.
Splitting the empty list yields `[[]]`, like `"".split(".")` gives
`[""]`. -/
def splitChar (sep : Char) : List Char → List (List Char)
  | [] => [[]]
  | c :: rest =>
    if c = sep then
      [] :: splitChar sep rest
    else
      match splitChar sep rest with
      | s :: ss => (c :: s) :: ss
      | [] => [[c]]

/-- `parts.join(sep)` for a single-character separator. -/
def joinChar (sep : Char) : List (List Char) → List Char
  | [] => []
  | [s] => s
  | s :: rest => s ++ sep :: joinChar sep rest

/-- Characters admitted by the key-normalization regex
`[a-zA-Z0-9-.:]`. -/
def allowedKeyChar (c : Char) : Bool :=
  (97 ≤ c.toNat && c.toNat ≤ 122) ||
  (65 ≤ c.toNat && c.toNat ≤ 90) ||
  (48 ≤ c.toNat && c.toNat ≤ 57) ||
  c = '-' || c = '.' || c = ':'

/-- `formatKey` (src/utils/format-key.ts): trim, then delete every
character outside `[a-zA-Z0-9-.:]`.  Note the source applies no case
conversion. -/
def formatKey (strkey : String) : String :=
  String.mk ((trimList strkey.data).filter allowedKeyChar)

/-- `extractLanguage` (src/utils/extract-lang.ts): trim, split on `,`,
for each item drop the `;q=...` weight and the `-` locale sub-tag and
trim, de-duplicate keeping first occurrences, and return element 0. -/
def extractLanguage (lang : String) : String :=
  let acceptLang := trimList lang.data
  let items := (splitChar ',' acceptLang).map (fun item =>
    trimList ((splitChar '-' ((splitChar ';' item).headD [])).headD []))
  String.mk ((items.eraseDups).headD [])

/-- Numeric value of a list of decimal digits. -/
def natOfDigits (cs : List Char) : Nat :=
  cs.foldl (fun a c => 10 * a + (c.toNat - 48)) 0

/-- The value a version segment contributes after `Number(seg)` followed by
the `|| 0` coercion inside `compare` / at parse time: the empty (or
all-whitespace) segment is `0` (`Number("") === 0`), a decimal numeral
(optionally signed) is its value, and anything else parses to `NaN`,
which the `|| 0` defaults turn into `0`.  `Number` also accepts exotic
forms (hex, exponent, `Infinity`) that are not decimal version numerals;
those are outside the version-string grammar and are not modelled. -/
def jsSegToInt (cs : List Char) : Int :=
  let t := trimList cs
  if t = [] then 0
  else if t.all Char.isDigit then Int.ofNat (natOfDigits t)
  else
    match t with
    | '-' :: rest =>
      if rest ≠ [] ∧ rest.all Char.isDigit then -(Int.ofNat (natOfDigits rest)) else 0
    | '+' :: rest =>
      if rest ≠ [] ∧ rest.all Char.isDigit then Int.ofNat (natOfDigits rest) else 0
    | _ => 0

namespace PolicyBuilder

/-- `PolicyBuilder.parseVersion` (newest policy): `v.split(".").map(Number)`,
with the `|| 0` coercion applied where the numbers are consumed. -/
def parseVersion (v : String) : List Int :=
  (splitChar '.' v.data).map jsSegToInt

/-- The loop body of `PolicyBuilder.compare`, indexed by the remaining
iteration count: at each step the current components are
`v1[i] || 0` / `v2[i] || 0` (heads of the successively shortened lists,
defaulting to `0` past the end), and the first difference decides. -/
def compareGo : Nat → List Int → List Int → Int
  | 0, _, _ => 0
  | n + 1, xs, ys =>
    if xs.headD 0 ≠ ys.headD 0 then (if xs.headD 0 > ys.headD 0 then 1 else -1)
    else compareGo n xs.tail ys.tail

/-- `PolicyBuilder.compare` (newest policy): left-to-right comparison of
the two integer tuples over `max(v1.length, v2.length)` iterations,
missing components defaulting to `0`; returns `1`, `-1` or `0`. -/
def compare (v1 v2 : List Int) : Int :=
  compareGo (max v1.length v2.length) v1 v2

end PolicyBuilder

/-- Result record of `PolicyBuilder.version_info`. -/
structure VersionInfoR where
  info_upgrade : Bool
  is_version_min : Bool
  is_version_now : Bool
deriving Repr, DecidableEq

/-- State of the newest `PolicyBuilder`: the constructor stores the raw
version strings together with their parsed forms (`parsed_min`,
`parsed_now`) and the two per-protocol deny-lists. -/
structure PolicyBuilderS where
  passkey : String
  version_now : String
  version_min : String
  version_forceupdate : Bool
  noaction_api : List String
  noaction_server : List String
  skip_middleware_context : Bool
  parsed_min : List Int
  parsed_now : List Int

namespace PolicyBuilderS

/-- `PolicyBuilder.version_info`: compares the parsed client version
against the pre-parsed minimum and current versions. -/
def version_info (pb : PolicyBuilderS) (clientVersion : String) : VersionInfoR :=
  let vClient := PolicyBuilder.parseVersion clientVersion
  { info_upgrade := pb.version_forceupdate,
    is_version_min := decide (PolicyBuilder.compare vClient pb.parsed_min ≥ 0),
    is_version_now := decide (PolicyBuilder.compare vClient pb.parsed_now ≥ 0) }

end PolicyBuilderS

/-- Replace every non-overlapping occurrence of `pat` in `s` by `rep`,
scanning left to right and resuming after each match — the behaviour of
`String.prototype.replace` with a global literal pattern (`errorOpt`
keys never contain regex metacharacters in the engine's own calls, and
`$`-substitutions in the replacement are not used). -/
def replaceAllGo (pat rep : List Char) : Nat → List Char → List Char
  | 0, s => s
  | _, [] => []
  | fuel + 1, c :: rest =>
    if pat.isPrefixOf (c :: rest) then
      rep ++ replaceAllGo pat rep fuel (List.drop (pat.length - 1) rest)
    else
      c :: replaceAllGo pat rep fuel rest

/-- Top entry: the scan consumes at least one character per step, so the
input length bounds the iteration count. -/
def replaceAllList (pat rep s : List Char) : List Char :=
  replaceAllGo pat rep s.length s

/- String coercion as `String.prototype.replace` applies it to the
replacement value: strings verbatim, numbers in decimal, booleans,
`null`/`undefined` by name, arrays joined by commas with null-ish
elements blank, plain objects as `[object Object]`. -/
mutual

/-- String coercion of a `JSVal`, see the comment above. -/
def jsToString : JSVal → String
  | .null => "null"
  | .undef => "undefined"
  | .bool true => "true"
  | .bool false => "false"
  | .num n => toString n
  | .str s => s
  | .obj _ => "[object Object]"
  | .arr xs => jsToStringArr xs
termination_by structural v => v

/-- `Array.prototype.join(",")`: null-ish elements render as the empty
string. -/
def jsToStringArr : List JSVal → String
  | [] => ""
  | [.null] => ""
  | [.undef] => ""
  | [v] => jsToString v
  | .null :: rest => "," ++ jsToStringArr rest
  | .undef :: rest => "," ++ jsToStringArr rest
  | v :: rest => jsToString v ++ "," ++ jsToStringArr rest
termination_by structural l => l

end

/-- State of a `MessageBuilder`: the active language chosen at
construction and the two-level language → (key → template) mapping, in
insertion order (`Object.keys` order for string keys). -/
structure MessageBuilderS where
  message_build_lang : String
  message_logic : List (String × List (String × String))

/-- Result record of `MessageBuilder.error`. -/
structure MessageErrorR where
  protocol : String
  context : List String
  params : JSVal
  message : String
deriving Repr

namespace MessageBuilderS

/-- The language sub-map `MessageBuilder.get` settles on: the requested
language if present, else the default language (the `DefaultLanguage`
constant, a module not included in the sources, passed here as the
`defaultLang` argument), else the first-inserted language; `none` when
the whole catalog is empty, which is the sentinel branch. -/
def resolvedMap (mb : MessageBuilderS) (defaultLang lang : String) :
    Option (List (String × String)) :=
  match mb.message_logic.lookup lang with
  | some m => some m
  | none =>
    match mb.message_logic.lookup defaultLang with
    | some m => some m
    | none =>
      match mb.message_logic.head? with
      | some e => some e.2
      | none => none

/-- `MessageBuilder.get`: normalize the key with `formatKey`, resolve the
language sub-map with the fallback chain, and return the trimmed stored
value — `String(map[key] || "").trim()`, so a missing key yields the
empty string; only when no language sub-map resolves at all is the
`[!NoneVariable key]` sentinel returned. -/
def get (mb : MessageBuilderS) (defaultLang key lang : String) : String :=
  let keyStr := formatKey key
  match mb.resolvedMap defaultLang lang with
  | none => "[!NoneVariable " ++ keyStr ++ "]"
  | some m =>
    match m.lookup keyStr with
    | some v => jsTrim v
    | none => ""

/-- `MessageBuilder.errorMessage`: fetch the template via `get`, then for
each key of `errorOpt` replace every literal occurrence of the
doubly-braced key with the (string-coerced, falsy-to-empty) value. -/
def errorMessage (mb : MessageBuilderS) (defaultLang errorSlug : String)
    (errorOpt : JSVal) (lang : String) : String :=
  let opt := if errorOpt.truthy then errorOpt else .obj []
  opt.keys.foldl
    (fun messageContext k =>
      let v := opt.get k
      let values := if v.truthy then jsToString v else ""
      String.mk (replaceAllList ('\x7b' :: '\x7b' :: k.data ++ ['\x7d', '\x7d'])
        values.data messageContext.data))
    (mb.get defaultLang errorSlug lang)

/-- `MessageBuilder.error`: split the error string on the first `:` into
protocol and rest, split the rest on `|` into slugs, interpolate each
slug with its positional entry of `errorOpts`, and join with `", "`. -/
def error (mb : MessageBuilderS) (defaultLang errorStr : String)
    (errorOpts : JSVal) (lang : String) : MessageErrorR :=
  let parts := splitChar ':' errorStr.data
  let protocol := String.mk (parts.headD [])
  let messages := joinChar ':' (parts.drop 1)
  let messageContext := (splitChar '|' messages).map String.mk
  let messageArrayCtx := String.intercalate ", "
    ((List.range messageContext.length).map (fun i =>
      mb.errorMessage defaultLang (messageContext.getD i "") (errorOpts.idx i) lang))
  { protocol := formatKey protocol,
    context := messageContext,
    params := errorOpts,
    message := messageArrayCtx }

end MessageBuilderS

/-- `Map.prototype.set`: update the entry in place if the key exists,
else append, preserving insertion order. -/
def mapSet {α : Type} : List (String × α) → String → α → List (String × α)
  | [], k, v => [(k, v)]
  | (k0, v0) :: rest, k, v =>
    if k0 = k then (k, v) :: rest else (k0, v0) :: mapSet rest k v

/-- Request-context system block (`RegistryParams["system"]`). -/
structure SystemCtx where
  cookies : List (String × String)
  headers : List (String × String)
  ip : String
  location : String
  lang : String

/-- `headers[name]` with the falsy default: a missing header reads as the
empty string (the engine only ever tests header values for truthiness or
hands them to `extractLanguage`, so `undefined` and `""` act alike). -/
def hdrD (headers : List (String × String)) (name : String) : String :=
  (headers.lookup name).getD ""

/-- The `response` field of the envelope built by `ResponseBuilder`: the
error shape carries `status`, `message`, `protocol`, `context`, `params`;
the success shape carries `status`, `data`. -/
structure RespBody where
  status : JSVal
  message : Option String := none
  protocol : Option String := none
  context : Option (List String) := none
  params : Option JSVal := none
  data : Option JSVal := none

/-- The uniform Response Envelope returned by every entry point. -/
structure Envelope where
  header : List (String × JSVal)
  set_cookie : List JSVal
  rm_cookie : List String
  status : JSVal
  redirect : JSVal
  error : JSVal
  response : RespBody

/-- The `middleware` field a handler receives: either a raw value (the
caller-supplied one, or the middleware's own result when normalization
is skipped) or the middleware's normalized envelope. -/
inductive MWField where
  | raw : JSVal → MWField
  | env : Envelope → MWField

/-- A request context (`RegistryParams`): handlers receive no
`context_manager`, so the field is optional, defaulting to
`"system-action"` inside `SystemAction`. -/
structure RegistryParams where
  system : SystemCtx
  type : String
  context_manager : Option String
  middleware : MWField
  data : JSVal

/-- A registry entry: a bare controller or a `[middleware, controller]`
pair.  A controller or middleware is an async function of the request
context; `.error ()` models a throw or a rejected promise. -/
inductive RegEntry where
  | single : (RegistryParams → Except Unit JSVal) → RegEntry
  | paired : (RegistryParams → Except Unit JSVal) → (RegistryParams → Except Unit JSVal) → RegEntry

namespace RegistryBuilder

/-- `RegistryBuilder.set` (Map-backed version): normalize the key, store
the pair when a middleware is supplied, the bare controller otherwise.
The callability / string type guards of the source are enforced by the
Lean types. -/
def set (r : List (String × RegEntry)) (key : String)
    (function_regis : RegistryParams → Except Unit JSVal)
    (middleware : Option (RegistryParams → Except Unit JSVal)) :
    List (String × RegEntry) :=
  let keyStr := formatKey key
  match middleware with
  | some m => mapSet r keyStr (.paired m function_regis)
  | none => mapSet r keyStr (.single function_regis)

/-- `RegistryBuilder.get`: normalize the key and look it up
(`Map.prototype.get`, `undefined` when absent). -/
def get (r : List (String × RegEntry)) (key : String) : Option RegEntry :=
  r.lookup (formatKey key)

end RegistryBuilder

/-- The manifest record returned by `BookRegistry`. -/
structure Book where
  iv_length : Nat
  type_base : String
  iv : String
  data : String
deriving Repr, DecidableEq

/-- State of the newest `Actions` class.  `defaultLanguage` models the
`DefaultLanguage` constant imported from `src/constants/message`, a
module not included in the sources; it is kept abstract as a state
field. -/
structure ActionsS where
  registry : List (String × RegEntry)
  message : MessageBuilderS
  defaultLanguage : String
  policy : PolicyBuilderS
  cache_book : Option Book

/-- The error classification of `ResponseBuilder` (newest version):
`!dataRes || typeof dataRes !== "object" || Array.isArray(dataRes) ||
!!dataRes.error || !dataRes.data`. -/
def jsIsError (dataRes : JSVal) : Bool :=
  !dataRes.truthy || !dataRes.typeofObject || dataRes.isArray
    || (dataRes.get "error").truthy || !(dataRes.get "data").truthy

namespace ActionsS

/-- `Actions.ResponseBuilder` (newest version): classify the raw result,
compute status / redirect / header / cookie lists, and build either the
error envelope (resolving the error code through the Message Catalog) or
the success envelope.  The `system` argument is accepted but never used,
as in the source. -/
def ResponseBuilder (a : ActionsS) (dataRes : JSVal) (_system : SystemCtx)
    (lang : String) : Envelope :=
  let isError := jsIsError dataRes
  let responseStatus := if (dataRes.get "status").truthy then dataRes.get "status"
    else .num (if isError then 400 else 200)
  let redirect := if (dataRes.get "redirect").truthy then dataRes.get "redirect" else .null
  let hv := dataRes.get "headers"
  let setHeaders := if hv.truthy && hv.typeofObject && !hv.isArray then
      (match hv with | .obj fs => fs | _ => []) else []
  let setCookie := match dataRes.get "set_cookie" with
    | .arr cs => cs.filter (fun c =>
        c.truthy && c.typeofObject && (c.get "key").truthy && (c.get "value").truthy)
    | _ => []
  let rmCookie := match dataRes.get "rm_cookie" with
    | .arr cs => cs.filterMap (fun c =>
        match c with
        | .str s => if s ≠ "" then some s else none
        | _ => none)
    | _ => []
  if isError then
    let errorCode := if (dataRes.get "error").truthy then dataRes.get "error"
      else .str "system:no-response-sending"
    let params := if (dataRes.get "params").truthy then dataRes.get "params" else .arr []
    let buildingMessage := a.message.error a.defaultLanguage (jsToString errorCode) params lang
    { header := setHeaders, set_cookie := setCookie, rm_cookie := rmCookie,
      status := responseStatus, redirect := redirect, error := errorCode,
      response := { status := responseStatus,
                    message := some buildingMessage.message,
                    protocol := some buildingMessage.protocol,
                    context := some buildingMessage.context,
                    params := some buildingMessage.params } }
  else
    { header := setHeaders, set_cookie := setCookie, rm_cookie := rmCookie,
      status := responseStatus, redirect := redirect, error := .null,
      response := { status := responseStatus,
                    data := some (if (dataRes.get "data").truthy then dataRes.get "data"
                      else .obj []) } }

end ActionsS

/-- The active language `SystemAction` computes: an explicit per-request
language header (or accept-language) run through `extractLanguage`, else
the context's declared language, else `"en"`. -/
def activeLangOf (p : RegistryParams) : String :=
  let clientLangHeader := jsOrStr (hdrD p.system.headers "x-seishiro-lang")
    (hdrD p.system.headers "accept-language")
  if clientLangHeader ≠ "" then extractLanguage clientLangHeader
  else jsOrStr p.system.lang "en"

/-- The `system` object handed to handlers: the request's system block
with its language replaced by the computed active language. -/
def sysWithLang (p : RegistryParams) : SystemCtx :=
  { p.system with lang := activeLangOf p }

/-- The request context handed to a bare controller or to the middleware
of a paired entry: the caller's context with the language-updated system
block and no `context_manager` property. -/
def handlerCtx (p : RegistryParams) : RegistryParams :=
  { system := sysWithLang p, middleware := p.middleware,
    type := p.type, context_manager := none, data := p.data }

/-- The `middleware` value handed to the controller of a paired entry:
the raw middleware result when the policy opts out or the result marks
itself `skipBuilder`, else its normalized envelope. -/
def mwFieldAfter (a : ActionsS) (systemWithLang : SystemCtx) (activeLang : String)
    (mwResult : JSVal) : MWField :=
  if a.policy.skip_middleware_context || (mwResult.get "skipBuilder").truthy then
    .raw mwResult
  else
    .env (a.ResponseBuilder mwResult systemWithLang activeLang)

/-- The request context handed to the controller of a paired entry:
like `handlerCtx` but with the middleware stage's outcome in the
`middleware` field. -/
def pairedCtrlCtx (a : ActionsS) (p : RegistryParams) (mwResult : JSVal) :
    RegistryParams :=
  { system := sysWithLang p,
    middleware := mwFieldAfter a (sysWithLang p) (activeLangOf p) mwResult,
    type := p.type, context_manager := none, data := p.data }

namespace ActionsS

/-- `Actions.SystemAction`: the shared core path — version gating for the
API context, registry lookup, middleware and controller execution, and
normalization; any throw inside the `try` is converted to the
internal-server-error envelope. -/
def SystemAction (a : ActionsS) (p : RegistryParams) : Envelope :=
  let activeLang := activeLangOf p
  let clientVersion := hdrD p.system.headers "x-seishiro-client"
  let cm := p.context_manager.getD "system-action"
  let iseObj : JSVal := .obj [("error", .str "system:internal-server-error"), ("status", .num 500)]
  if cm = "api-action" ∧ clientVersion = "" then
    a.ResponseBuilder (.obj [("error", .str "system:client-version-required"),
      ("status", .num 400)]) p.system activeLang
  else if clientVersion ≠ "" ∧ cm = "api-action" ∧
      (!(a.policy.version_info clientVersion).is_version_min &&
        (a.policy.version_info clientVersion).info_upgrade) = true then
    a.ResponseBuilder (.obj [("error", .str "system:need-upgrade-client"),
      ("status", .num 426),
      ("params", .arr [.obj [("min", .str a.policy.version_min),
        ("now", .str a.policy.version_now)]])]) p.system activeLang
  else
    match RegistryBuilder.get a.registry p.type with
    | none => a.ResponseBuilder (.obj [("error", .str "system:no-registry"),
        ("status", .num 404)]) p.system activeLang
    | some entry =>
      match entry with
      | .single f =>
        match f (handlerCtx p) with
        | .error _ => a.ResponseBuilder iseObj p.system activeLang
        | .ok res => a.ResponseBuilder res (sysWithLang p) activeLang
      | .paired mwFn ctrl =>
        match mwFn (handlerCtx p) with
        | .error _ => a.ResponseBuilder iseObj p.system activeLang
        | .ok mwResult =>
          match ctrl (pairedCtrlCtx a p mwResult) with
          | .error _ => a.ResponseBuilder iseObj p.system activeLang
          | .ok res => a.ResponseBuilder res (sysWithLang p) activeLang

/-- The language computed inside the deny-list branches of
`ServerAction` / `APIAction`: note it runs `extractLanguage` over the
fallback chain including `system.lang`, unlike `SystemAction`. -/
def denyBranchLang (p : RegistryParams) : String :=
  extractLanguage (jsOrStr (hdrD p.system.headers "x-seishiro-lang")
    (jsOrStr (hdrD p.system.headers "accept-language")
      (jsOrStr p.system.lang "en")))

/-- `Actions.ServerAction`: deny-list gate for the server protocol, then
the shared core path tagged `server-action`. -/
def ServerAction (a : ActionsS) (p : RegistryParams) : Envelope :=
  if a.policy.noaction_server.contains p.type then
    a.ResponseBuilder (.obj [("error", .str "system:no-registry"),
      ("status", .num 404)]) p.system (denyBranchLang p)
  else
    a.SystemAction { p with context_manager := some "server-action" }

/-- `Actions.APIAction`: deny-list gate for the API protocol, then the
shared core path tagged `api-action`. -/
def APIAction (a : ActionsS) (p : RegistryParams) : Envelope :=
  if a.policy.noaction_api.contains p.type then
    a.ResponseBuilder (.obj [("error", .str "system:no-registry"),
      ("status", .num 404)]) p.system (denyBranchLang p)
  else
    a.SystemAction { p with context_manager := some "api-action" }

end ActionsS

/-- Lower-case hex digit for a value below 16. -/
def hexDigitChar (n : Nat) : Char :=
  if n < 10 then Char.ofNat (48 + n) else Char.ofNat (87 + n)

/-- `Buffer.prototype.toString("hex")`: two lower-case hex digits per
byte. -/
def hexEncodeBytes (bs : List Nat) : String :=
  String.mk (bs.flatMap (fun b => [hexDigitChar (b / 16), hexDigitChar (b % 16)]))

/-- Value of one hex digit (either case); non-hex characters read 0. -/
def hexVal (c : Char) : Nat :=
  if 48 ≤ c.toNat ∧ c.toNat ≤ 57 then c.toNat - 48
  else if 97 ≤ c.toNat ∧ c.toNat ≤ 102 then c.toNat - 87
  else if 65 ≤ c.toNat ∧ c.toNat ≤ 70 then c.toNat - 55
  else 0

/-- Decode a hex character list two digits at a time. -/
def hexDecodePairs : List Char → List Nat
  | a :: b :: rest => (16 * hexVal a + hexVal b) :: hexDecodePairs rest
  | _ => []

/-- Decode a hex string back to its bytes. -/
def hexDecode (s : String) : List Nat :=
  hexDecodePairs s.data

/-- `JSON.stringify` escaping for one character inside a string
literal. -/
def jsonEscapeChar (c : Char) : List Char :=
  if c = '"' then ['\\', '"']
  else if c = '\\' then ['\\', '\\']
  else if c = '\x08' then ['\\', 'b']
  else if c = '\t' then ['\\', 't']
  else if c = '\n' then ['\\', 'n']
  else if c = '\x0c' then ['\\', 'f']
  else if c = '\r' then ['\\', 'r']
  else if c.toNat < 32 then
    '\\' :: 'u' :: '0' :: '0' :: [hexDigitChar (c.toNat / 16), hexDigitChar (c.toNat % 16)]
  else [c]

/-- `JSON.stringify` of a string. -/
def jsonOfString (s : String) : String :=
  String.mk ('"' :: s.data.flatMap jsonEscapeChar ++ ['"'])

/-- The plaintext record `BookRegistry` serializes before encrypting. -/
structure BookPlain where
  listkey : List String
  version_now : String
  version_min : String
  version_forceupdate : Bool
deriving Repr, DecidableEq

/-- `JSON.stringify` of the `buildRegistry` record, in its property
insertion order. -/
def jsonOfBook (b : BookPlain) : String :=
  "\x7b\"listkey\":[" ++ String.intercalate "," (b.listkey.map jsonOfString) ++
  "],\"version_now\":" ++ jsonOfString b.version_now ++
  ",\"version_min\":" ++ jsonOfString b.version_min ++
  ",\"version_forceupdate\":" ++ (if b.version_forceupdate then "true" else "false") ++
  "\x7d"

/-- UTF-8 encoding of one character. -/
def utf8Char (c : Char) : List Nat :=
  let n := c.toNat
  if n < 128 then [n]
  else if n < 2048 then [192 + n / 64, 128 + n % 64]
  else if n < 65536 then [224 + n / 4096, 128 + (n / 64) % 64, 128 + n % 64]
  else [240 + n / 262144, 128 + (n / 4096) % 64, 128 + (n / 64) % 64, 128 + n % 64]

/-- The byte sequence `cipher.update(s, "utf-8")` consumes. -/
def utf8Bytes (s : String) : List Nat :=
  s.data.flatMap utf8Char

/-- In the source, `this.registry.apply()` returns the ES `Map` backing
the Map-based `RegistryBuilder`, and `BookRegistry` then runs
`Object.keys(registry)` over it.  `Object.keys` enumerates own
enumerable string-keyed properties, and a `Map` instance stores its
entries internally, not as properties — so `Object.keys` of any `Map` is
the empty array, whatever the registry contains.  This definition
records exactly that behaviour of the source pair (`actions.ts` newest
class + Map-based `RegistryBuilder`). -/
def objectKeysOfMap (_registry : List (String × RegEntry)) : List String :=
  []

namespace ActionsS

/-- The `buildRegistry` record of `BookRegistry`:
`Object.keys(registry)` filtered by the API deny-list, plus the version
fields of the policy.  (See `objectKeysOfMap` for why the key list is
empty.) -/
def buildRegistryPlain (a : ActionsS) : BookPlain :=
  { listkey := (objectKeysOfMap a.registry).filter
      (fun k => !(a.policy.noaction_api.contains k)),
    version_now := a.policy.version_now,
    version_min := a.policy.version_min,
    version_forceupdate := a.policy.version_forceupdate }

/-- `Actions.BookRegistry` (newest version, with `cache_book`): return
the cached manifest if one exists; otherwise derive the AES key by
SHA-256 of the trimmed passkey, serialize the `buildRegistry` record,
encrypt it with AES-256-CTR under a fresh 16-byte IV, prepend the IV to
the ciphertext, hex-encode, cache and return.  The SHA-256 digest, the
AES-256-CTR keystream application and the random IV are the Node
`crypto` calls and enter as the parameters `sha256`, `encrypt` and
`ivKey`. -/
def BookRegistry (a : ActionsS) (sha256 : String → List Nat)
    (encrypt : List Nat → List Nat → List Nat → List Nat)
    (ivKey : List Nat) : Book × ActionsS :=
  match a.cache_book with
  | some b => (b, a)
  | none =>
    let ivLength := 16
    let keyencrypt := sha256 (jsTrim a.policy.passkey)
    let buildRegistry := a.buildRegistryPlain
    let results := ivKey ++ encrypt keyencrypt ivKey (utf8Bytes (jsonOfBook buildRegistry))
    let buildCache : Book :=
      { iv_length := ivLength, type_base := "hex",
        iv := hexEncodeBytes ivKey, data := hexEncodeBytes results }
    (buildCache, { a with cache_book := some buildCache })

end ActionsS


/-- One-step unfolding of `PolicyBuilder.compare` through the zero
defaults: the comparison looks at the zero-extended heads and recurses on
the tails. -/
theorem compare_head_step (xs ys : List Int) :
    PolicyBuilder.compare xs ys =
      if xs.headD 0 = ys.headD 0 then PolicyBuilder.compare xs.tail ys.tail
      else if xs.headD 0 > ys.headD 0 then 1 else -1 := by
  cases xs with
  | nil =>
    cases ys with
    | nil => simp [PolicyBuilder.compare, PolicyBuilder.compareGo]
    | cons y t =>
      simp only [PolicyBuilder.compare, PolicyBuilder.compareGo, List.length_nil, List.length_cons,
        Nat.zero_max, List.headD, List.tail_cons, List.tail_nil]
      by_cases h : (0 : Int) = y
      · simp [PolicyBuilder.compareGo, h]
      · simp [h, Ne.symm h]
  | cons x t =>
    cases ys with
    | nil =>
      simp only [PolicyBuilder.compare, PolicyBuilder.compareGo, List.length_nil, List.length_cons,
        Nat.max_zero, List.headD, List.tail_cons, List.tail_nil]
      by_cases h : x = 0
      · simp [PolicyBuilder.compareGo, h]
      · simp [h]
    | cons y u =>
      simp only [PolicyBuilder.compare, PolicyBuilder.compareGo, List.length_cons,
        Nat.succ_max_succ, List.headD, List.tail_cons]
      by_cases h : x = y
      · simp [PolicyBuilder.compareGo, h]
      · simp [h]

/-- Tail lengths of two lists drop under a shared bound. -/
theorem tail_len_le2 {n : Nat} (a b : List Int)
    (h : a.length + b.length ≤ n + 1) :
    a.tail.length + b.tail.length ≤ n := by
  cases a <;> cases b <;> simp_all <;> try omega

/-- Tail lengths of three lists drop under a shared bound. -/
theorem tail_len_le3 {n : Nat} (a b c : List Int)
    (h : a.length + b.length + c.length ≤ n + 1) :
    a.tail.length + b.tail.length + c.tail.length ≤ n := by
  cases a <;> cases b <;> cases c <;> simp_all <;> omega

/-- Fuel-indexed transitivity of the nonnegative side of `compare`. -/
theorem compare_trans_fuel : ∀ (n : Nat) (a b c : List Int),
    a.length + b.length + c.length ≤ n →
    0 ≤ PolicyBuilder.compare a b → 0 ≤ PolicyBuilder.compare b c →
    0 ≤ PolicyBuilder.compare a c := by
  intro n
  induction n with
  | zero =>
    intro a b c hlen h1 h2
    have ha : a = [] := by cases a <;> simp_all
    have hc : c = [] := by cases c <;> simp_all
    subst ha; subst hc
    simp [PolicyBuilder.compare, PolicyBuilder.compareGo]
  | succ n ih =>
    intro a b c hlen h1 h2
    rw [compare_head_step] at h1 h2 ⊢
    by_cases hab : a.headD 0 = b.headD 0
    · by_cases hbc : b.headD 0 = c.headD 0
      · rw [if_pos hab] at h1
        rw [if_pos hbc] at h2
        rw [if_pos (hab.trans hbc)]
        exact ih _ _ _ (tail_len_le3 a b c hlen) h1 h2
      · rw [if_neg hbc] at h2
        have hgt : b.headD 0 > c.headD 0 := by
          by_contra hle
          rw [if_neg hle] at h2
          omega
        rw [if_neg (by omega), if_pos (by omega)]
        omega
    · rw [if_neg hab] at h1
      have hgt : a.headD 0 > b.headD 0 := by
        by_contra hle
        rw [if_neg hle] at h1
        omega
      by_cases hbc : b.headD 0 = c.headD 0
      · rw [if_neg (by omega), if_pos (by omega)]
        omega
      · rw [if_neg hbc] at h2
        have hgt2 : b.headD 0 > c.headD 0 := by
          by_contra hle
          rw [if_neg hle] at h2
          omega
        rw [if_neg (by omega), if_pos (by omega)]
        omega

/-- Fuel-indexed totality of the nonnegative side of `compare`. -/
theorem compare_total_fuel : ∀ (n : Nat) (a b : List Int),
    a.length + b.length ≤ n →
    0 ≤ PolicyBuilder.compare a b ∨ 0 ≤ PolicyBuilder.compare b a := by
  intro n
  induction n with
  | zero =>
    intro a b hlen
    have ha : a = [] := by cases a <;> simp_all
    have hb : b = [] := by cases b <;> simp_all
    subst ha; subst hb
    left
    simp [PolicyBuilder.compare, PolicyBuilder.compareGo]
  | succ n ih =>
    intro a b hlen
    rw [compare_head_step a b, compare_head_step b a]
    by_cases hab : a.headD 0 = b.headD 0
    · rw [if_pos hab, if_pos hab.symm]
      exact ih _ _ (tail_len_le2 a b hlen)
    · by_cases hgt : a.headD 0 > b.headD 0
      · left
        rw [if_neg hab, if_pos hgt]
        omega
      · right
        rw [if_neg (fun e => hab e.symm), if_pos (by omega)]
        omega

/-- Claim C7: the version comparison used by `version_info` is a total
preorder on version strings — the relation `compare(a,b) ≥ 0` is
transitive and total — and comparison is lexicographic over
zero-extended integer tuples, so "1.4" and "1.4.0" compare equal. -/
theorem C7_version_compare_total_preorder :
    (∀ a b c : String,
      PolicyBuilder.compare (PolicyBuilder.parseVersion a) (PolicyBuilder.parseVersion b) ≥ 0 →
      PolicyBuilder.compare (PolicyBuilder.parseVersion b) (PolicyBuilder.parseVersion c) ≥ 0 →
      PolicyBuilder.compare (PolicyBuilder.parseVersion a) (PolicyBuilder.parseVersion c) ≥ 0) ∧
    (∀ a b : String,
      PolicyBuilder.compare (PolicyBuilder.parseVersion a) (PolicyBuilder.parseVersion b) ≥ 0 ∨
      PolicyBuilder.compare (PolicyBuilder.parseVersion b) (PolicyBuilder.parseVersion a) ≥ 0) ∧
    PolicyBuilder.compare (PolicyBuilder.parseVersion "1.4")
      (PolicyBuilder.parseVersion "1.4.0") = 0 := by
  refine ⟨fun a b c h1 h2 => ?_,
    fun a b => compare_total_fuel
      ((PolicyBuilder.parseVersion a).length + (PolicyBuilder.parseVersion b).length)
      _ _ le_rfl,
    by decide⟩
  exact compare_trans_fuel
    ((PolicyBuilder.parseVersion a).length + (PolicyBuilder.parseVersion b).length +
      (PolicyBuilder.parseVersion c).length) _ _ _ le_rfl h1 h2

/-- Witness for C7 at the concrete versions 1.4.1 ≥ 1.4 ≥ 1.3. -/
theorem C7_version_compare_total_preorder_witness :
    (PolicyBuilder.compare (PolicyBuilder.parseVersion "1.4.1")
        (PolicyBuilder.parseVersion "1.4") ≥ 0 ∧
     PolicyBuilder.compare (PolicyBuilder.parseVersion "1.4")
        (PolicyBuilder.parseVersion "1.3") ≥ 0) ∧
    PolicyBuilder.compare (PolicyBuilder.parseVersion "1.4.1")
        (PolicyBuilder.parseVersion "1.3") ≥ 0 :=
  ⟨⟨by decide, by decide⟩,
    C7_version_compare_total_preorder.1 "1.4.1" "1.4" "1.3" (by decide) (by decide)⟩

/-- Reflexivity of `compare`. -/
theorem compare_self (xs : List Int) : PolicyBuilder.compare xs xs = 0 := by
  induction xs with
  | nil => simp [PolicyBuilder.compare, PolicyBuilder.compareGo]
  | cons x t ih => rw [compare_head_step]; simp [ih]

/-- Looking up the key just written by `mapSet` returns the written
value. -/
theorem lookup_mapSet {α : Type} (r : List (String × α)) (k : String) (v : α) :
    (mapSet r k v).lookup k = some v := by
  induction r with
  | nil => simp [mapSet]
  | cons h t ih =>
    obtain ⟨k0, v0⟩ := h
    by_cases e : k0 = k
    · simp [mapSet, e]
    · have hbe : (k == k0) = false := beq_eq_false_iff_ne.mpr (Ne.symm e)
      simp [mapSet, e, List.lookup, hbe, ih]

/-- Splitting a list that avoids the separator yields the singleton. -/
theorem splitChar_no_sep (sep : Char) (a : List Char)
    (ha : ∀ c ∈ a, c ≠ sep) : splitChar sep a = [a] := by
  induction a with
  | nil => rfl
  | cons c t ih =>
    have hc : c ≠ sep := ha c (by simp)
    have ht : ∀ x ∈ t, x ≠ sep := fun x hx => ha x (by simp [hx])
    simp [splitChar, hc, ih ht]

/-- Splitting at the first separator occurrence peels off the prefix. -/
theorem splitChar_append (sep : Char) (a b : List Char)
    (ha : ∀ c ∈ a, c ≠ sep) :
    splitChar sep (a ++ sep :: b) = a :: splitChar sep b := by
  induction a with
  | nil => simp [splitChar]
  | cons c t ih =>
    have hc : c ≠ sep := ha c (by simp)
    have ht : ∀ x ∈ t, x ≠ sep := fun x hx => ha x (by simp [hx])
    simp [splitChar, hc, ih ht]

/-- `dropWhile` distributes over an append whose right part starts with
a non-matching element. -/
theorem dropWhile_append_cons {p : Char → Bool} (a : List Char) (c : Char)
    (d : List Char) (hc : p c = false) :
    (a ++ c :: d).dropWhile p = a.dropWhile p ++ c :: d := by
  induction a with
  | nil => simp [List.dropWhile_cons, hc]
  | cons x t ih =>
    by_cases hx : p x
    · simp [List.dropWhile_cons, hx, ih]
    · simp [List.dropWhile_cons, hx]

/-- Decimal digits are not JavaScript whitespace. -/
theorem digit_not_ws {c : Char} (h : c.isDigit = true) :
    jsWhitespace c = false := by
  cases hws : jsWhitespace c
  · rfl
  · exfalso
    simp only [jsWhitespace, Bool.or_eq_true, decide_eq_true_eq] at hws
    rcases hws with ((rfl | rfl) | rfl) | rfl <;> simp [Char.isDigit] at h

/-- Trimming a segment that starts with a digit and carries a `-`-suffix
only strips trailing whitespace of the suffix. -/
theorem trimList_digit_dash (sz r : List Char) (hne : sz ≠ [])
    (hdig : ∀ c ∈ sz, c.isDigit) :
    trimList (sz ++ '-' :: r) =
      sz ++ '-' :: (r.reverse.dropWhile jsWhitespace).reverse := by
  have h1 : (sz ++ '-' :: r).dropWhile jsWhitespace = sz ++ '-' :: r := by
    cases sz with
    | nil => exact absurd rfl hne
    | cons c t =>
      have : jsWhitespace c = false := digit_not_ws (hdig c (by simp))
      simp [List.dropWhile_cons, this]
  have h2 : (sz ++ '-' :: r).reverse = r.reverse ++ '-' :: sz.reverse := by
    simp
  unfold trimList
  rw [h1, h2, dropWhile_append_cons _ _ _ (by decide)]
  simp

/-- A digits-then-`-`-suffix segment is not a numeral: `Number` yields
`NaN` and the `|| 0` coercion makes it contribute `0`. -/
theorem jsSegToInt_suffix (sz r : List Char) (hne : sz ≠ [])
    (hdig : ∀ c ∈ sz, c.isDigit) :
    jsSegToInt (sz ++ '-' :: r) = 0 := by
  unfold jsSegToInt
  rw [trimList_digit_dash sz r hne hdig]
  cases sz with
  | nil => exact absurd rfl hne
  | cons c t =>
    have hcd : c.isDigit = true := hdig c (by simp)
    have hnotempty : ¬((c :: t) ++ '-' :: (r.reverse.dropWhile jsWhitespace).reverse = []) := by
      simp
    rw [if_neg hnotempty]
    have hnotall : ((c :: t) ++ '-' :: (r.reverse.dropWhile jsWhitespace).reverse).all
        Char.isDigit = false := by
      apply List.all_eq_false.mpr
      exact ⟨'-', by simp, by decide⟩
    rw [hnotall]
    simp only [Bool.false_eq_true, if_false]
    split
    · rename_i rest heq
      rw [List.cons_append] at heq
      injection heq with hc2 _
      rw [hc2] at hcd
      simp [Char.isDigit] at hcd
    · rename_i rest heq
      rw [List.cons_append] at heq
      injection heq with hc2 _
      rw [hc2] at hcd
      simp [Char.isDigit] at hcd
    · rfl

/-- Claim C8 counterexample: on the current `PolicyBuilder`,
"1.2.3-beta" does NOT compare equal to "1.2.3" — the suffixed segment
parses as `NaN`, is coerced to `0`, and the version compares equal to
"1.2.0" instead. -/
theorem C8_counterexample :
    PolicyBuilder.compare (PolicyBuilder.parseVersion "1.2.3-beta")
      (PolicyBuilder.parseVersion "1.2.3") ≠ 0 ∧
    PolicyBuilder.compare (PolicyBuilder.parseVersion "1.2.3-beta")
      (PolicyBuilder.parseVersion "1.2.0") = 0 :=
  ⟨by decide, by decide⟩

/-- Claim C8 (amended): the current `parseVersion` does not strip
pre-release suffixes; a segment of the form `digits-suffix` parses as
`NaN` and the `|| 0` coercion makes it `0`, so every version
"X.Y.Z-suffix" parses as `[X, Y, 0]` and compares equal to "X.Y.0"
(not "X.Y.Z"). -/
theorem C8_version_suffix_coerced_to_zero (sx sy sz r : List Char)
    (hx : ∀ c ∈ sx, c ≠ '.') (hy : ∀ c ∈ sy, c ≠ '.')
    (hz : sz ≠ []) (hzd : ∀ c ∈ sz, c.isDigit) (hr : ∀ c ∈ r, c ≠ '.') :
    PolicyBuilder.parseVersion (String.mk (sx ++ '.' :: sy ++ '.' :: sz ++ '-' :: r)) =
      [jsSegToInt sx, jsSegToInt sy, 0] ∧
    PolicyBuilder.compare
      (PolicyBuilder.parseVersion (String.mk (sx ++ '.' :: sy ++ '.' :: sz ++ '-' :: r)))
      (PolicyBuilder.parseVersion
        (String.mk (sx ++ '.' :: sy ++ '.' :: ['0']))) = 0 := by
  have hzdot : ∀ c ∈ sz ++ '-' :: r, c ≠ '.' := by
    intro c hc
    rcases List.mem_append.mp hc with h | h
    · have := hzd c h
      intro e
      rw [e] at this
      simp [Char.isDigit] at this
    · rcases List.mem_cons.mp h with rfl | h2
      · decide
      · exact hr c h2
  have hsplit1 : PolicyBuilder.parseVersion
      (String.mk (sx ++ '.' :: sy ++ '.' :: sz ++ '-' :: r)) =
      [jsSegToInt sx, jsSegToInt sy, 0] := by
    simp only [PolicyBuilder.parseVersion]
    simp only [List.cons_append, List.append_assoc]
    rw [splitChar_append '.' sx _ hx, splitChar_append '.' sy _ hy,
      splitChar_no_sep '.' _ hzdot]
    simp [jsSegToInt_suffix sz r hz hzd]
  refine ⟨hsplit1, ?_⟩
  have hsplit2 : PolicyBuilder.parseVersion
      (String.mk (sx ++ '.' :: sy ++ '.' :: ['0'])) =
      [jsSegToInt sx, jsSegToInt sy, 0] := by
    simp only [PolicyBuilder.parseVersion]
    simp only [List.cons_append, List.append_assoc]
    rw [splitChar_append '.' sx _ hx, splitChar_append '.' sy _ hy,
      splitChar_no_sep '.' ['0'] (by decide)]
    simp
    decide
  rw [hsplit1, hsplit2, compare_self]

/-- Witness for C8 at "1.2.3-beta" vs "1.2.0". -/
theorem C8_version_suffix_coerced_to_zero_witness :
    ((∀ c ∈ ['1'], c ≠ '.') ∧ (∀ c ∈ ['2'], c ≠ '.') ∧ (['3'] : List Char) ≠ [] ∧
      (∀ c ∈ ['3'], c.isDigit) ∧ (∀ c ∈ ['b','e','t','a'], c ≠ '.')) ∧
    PolicyBuilder.compare
      (PolicyBuilder.parseVersion (String.mk (['1'] ++ '.' :: ['2'] ++ '.' :: ['3'] ++ '-' :: ['b','e','t','a'])))
      (PolicyBuilder.parseVersion (String.mk (['1'] ++ '.' :: ['2'] ++ '.' :: ['0']))) = 0 :=
  ⟨⟨by decide, by decide, by decide, by decide, by decide⟩,
    (C8_version_suffix_coerced_to_zero ['1'] ['2'] ['3'] ['b','e','t','a']
      (by decide) (by decide) (by decide) (by decide) (by decide)).2⟩

/-- Claim C5 counterexample: `formatKey` does not lower-case — "A"
normalizes to "A", not "a", and keys differing only in case address
different registry entries. -/
theorem C5_counterexample :
    formatKey "A" = "A" ∧ formatKey "A" ≠ "a" ∧
    RegistryBuilder.get
      (RegistryBuilder.set [] "A" (fun _ => .ok (.obj [])) none) "a" = none :=
  ⟨rfl, by decide, rfl⟩

/-- Claim C5 (amended): `formatKey` returns its input trimmed with every
character outside `[a-zA-Z0-9-.:]` removed, with NO case conversion;
consequently Registry `set`/`get` agree exactly on keys with equal
normalization (case-sensitively). -/
theorem C5_formatKey_normalization (s k1 k2 : String)
    (f : RegistryParams → Except Unit JSVal) (r : List (String × RegEntry))
    (h : formatKey k1 = formatKey k2) :
    (formatKey s).data.all allowedKeyChar = true ∧
    RegistryBuilder.get (RegistryBuilder.set r k1 f none) k2 =
      some (.single f) := by
  constructor
  · apply List.all_eq_true.mpr
    intro c hc
    have : c ∈ (trimList s.data).filter allowedKeyChar := hc
    exact (List.mem_filter.mp this).2
  · show (mapSet r (formatKey k1) (.single f)).lookup (formatKey k2) = _
    rw [← h, lookup_mapSet]

/-- Witness for C5 at keys "a b" and "ab" (equal normalizations). -/
theorem C5_formatKey_normalization_witness :
    formatKey "a b" = formatKey "ab" ∧
    ((formatKey "x!").data.all allowedKeyChar = true ∧
      RegistryBuilder.get
        (RegistryBuilder.set [] "a b" (fun _ => .ok (.obj [])) none) "ab" =
        some (.single (fun _ => .ok (.obj [])))) :=
  ⟨by decide,
    C5_formatKey_normalization "x!" "a b" "ab" (fun _ => .ok (.obj [])) [] (by decide)⟩

/-- Field presence (without truthiness), for stating the claim's reading
of the classifier. -/
def JSVal.hasField : JSVal → String → Bool
  | .obj fields, k => (fields.lookup k).isSome
  | _, _ => false

/-- The error classifier as claim C4 words it: the value is not an
object, or is an array, or carries an `error` field, or lacks a `data`
field (field presence, not truthiness).  This follows the claim's words,
to be compared with `jsIsError`, which follows the source. -/
def claimErrorClassifier (v : JSVal) : Bool :=
  !(match v with | .obj _ => true | .arr _ => true | _ => false)
  || v.isArray || v.hasField "error" || !(v.hasField "data")

/-- The corrected classifier: the value is not a (truthy) plain object,
or carries a truthy `error` field, or its `data` field is missing or
falsy. -/
def amendedErrorClassifier (v : JSVal) : Bool :=
  !(match v with | .obj _ => true | _ => false)
  || (v.get "error").truthy || !(v.get "data").truthy

/-- Shared concrete fixtures for counterexamples and witnesses. -/
def baseMsg : MessageBuilderS :=
  { message_build_lang := "en", message_logic := [] }

def basePolicy : PolicyBuilderS :=
  { passkey := "k", version_now := "1.4", version_min := "1.2",
    version_forceupdate := true, noaction_api := ["blocked"],
    noaction_server := ["srvblocked"], skip_middleware_context := false,
    parsed_min := PolicyBuilder.parseVersion "1.2",
    parsed_now := PolicyBuilder.parseVersion "1.4" }

def baseState : ActionsS :=
  { registry := [], message := baseMsg, defaultLanguage := "en",
    policy := basePolicy, cache_book := none }

def baseSys : SystemCtx :=
  { cookies := [], headers := [], ip := "", location := "", lang := "en" }

def baseCtx (t : String) : RegistryParams :=
  { system := baseSys, type := t, context_manager := none,
    middleware := .raw (.obj []), data := .obj [] }

/-- Claim C4 counterexample: `{data: 0}` carries a `data` field, no
`error` field, is an object and not an array — the claim's classifier
calls it a success — yet the source classifies it as an error (the
`data` field is falsy) and produces the error-shaped envelope with the
default `system:no-response-sending` code. -/
theorem C4_counterexample :
    jsIsError (.obj [("data", .num 0)]) = true ∧
    claimErrorClassifier (.obj [("data", .num 0)]) = false ∧
    (baseState.ResponseBuilder (.obj [("data", .num 0)]) baseSys "en").error =
      .str "system:no-response-sending" ∧
    (baseState.ResponseBuilder (.obj [("data", .num 0)]) baseSys "en").response.data =
      none :=
  ⟨by decide, by decide, rfl, rfl⟩

/-- Claim C4 (amended): `ResponseBuilder` classifies a raw value as an
error iff it is not a plain object, or carries a truthy `error` field,
or its `data` field is missing or falsy; the error envelope's `response`
carries `{status, message, protocol, context, params}` and the success
envelope's `response` carries `{status, data}`. -/
theorem C4_response_classification (a : ActionsS) (sys : SystemCtx)
    (lang : String) (v : JSVal) :
    jsIsError v = amendedErrorClassifier v ∧
    (jsIsError v = true →
      ((a.ResponseBuilder v sys lang).response.message.isSome = true ∧
       (a.ResponseBuilder v sys lang).response.protocol.isSome = true ∧
       (a.ResponseBuilder v sys lang).response.context.isSome = true ∧
       (a.ResponseBuilder v sys lang).response.params.isSome = true ∧
       (a.ResponseBuilder v sys lang).response.data = none)) ∧
    (jsIsError v = false →
      ((a.ResponseBuilder v sys lang).response.data.isSome = true ∧
       (a.ResponseBuilder v sys lang).response.message = none ∧
       (a.ResponseBuilder v sys lang).response.protocol = none ∧
       (a.ResponseBuilder v sys lang).response.context = none ∧
       (a.ResponseBuilder v sys lang).response.params = none)) := by
  refine ⟨?_, fun h => ?_, fun h => ?_⟩
  · cases v <;> simp [jsIsError, amendedErrorClassifier, JSVal.truthy,
      JSVal.typeofObject, JSVal.isArray, JSVal.get]
  · simp [ActionsS.ResponseBuilder, h]
  · simp [ActionsS.ResponseBuilder, h]

/-- Witness for C4 at the error-shaped value `{error: "x"}`. -/
theorem C4_response_classification_witness :
    jsIsError (JSVal.obj [("error", JSVal.str "x")]) = true ∧
    ((baseState.ResponseBuilder (JSVal.obj [("error", JSVal.str "x")])
        baseSys "en").response.message.isSome = true ∧
     (baseState.ResponseBuilder (JSVal.obj [("error", JSVal.str "x")])
        baseSys "en").response.protocol.isSome = true ∧
     (baseState.ResponseBuilder (JSVal.obj [("error", JSVal.str "x")])
        baseSys "en").response.context.isSome = true ∧
     (baseState.ResponseBuilder (JSVal.obj [("error", JSVal.str "x")])
        baseSys "en").response.params.isSome = true ∧
     (baseState.ResponseBuilder (JSVal.obj [("error", JSVal.str "x")])
        baseSys "en").response.data = none) :=
  ⟨by decide,
    (C4_response_classification baseState baseSys "en"
      (JSVal.obj [("error", JSVal.str "x")])).2.1 (by decide)⟩

/-- Claim C10: when the resolved language sub-map exists but lacks the
requested key, `get` returns the empty string (not the sentinel, without
throwing); the `[!NoneVariable key]` sentinel arises exactly when the
requested language, the default language and the first-inserted language
all resolve to nothing — that is, when the catalog holds no language at
all. -/
theorem C10_message_get_fallback (mb : MessageBuilderS)
    (defaultLang key lang : String) :
    (∀ m, mb.resolvedMap defaultLang lang = some m →
      m.lookup (formatKey key) = none →
      mb.get defaultLang key lang = "") ∧
    (mb.resolvedMap defaultLang lang = none ↔
      (mb.message_logic.lookup lang = none ∧
       mb.message_logic.lookup defaultLang = none ∧
       mb.message_logic = [])) ∧
    (mb.resolvedMap defaultLang lang = none →
      mb.get defaultLang key lang = "[!NoneVariable " ++ formatKey key ++ "]") := by
  refine ⟨fun m hm hk => ?_, ?_, fun h => ?_⟩
  · simp [MessageBuilderS.get, hm, hk, jsTrim, trimList]
  · constructor
    · intro h
      unfold MessageBuilderS.resolvedMap at h
      rcases e1 : mb.message_logic.lookup lang with _ | m1
      · rcases e2 : mb.message_logic.lookup defaultLang with _ | m2
        · rcases e3 : mb.message_logic.head? with _ | hd
          · exact ⟨rfl, rfl, List.head?_eq_none_iff.mp e3⟩
          · rw [e1, e2, e3] at h
            simp at h
        · rw [e1, e2] at h
          simp at h
      · rw [e1] at h
        simp at h
    · rintro ⟨h1, h2, h3⟩
      unfold MessageBuilderS.resolvedMap
      rw [h1, h2, h3]
      rfl
  · simp [MessageBuilderS.get, h]

/-- Witness for C10: a catalog holding English `{a ↦ "x"}`, asked for
the missing key "b", answers the empty string. -/
theorem C10_message_get_fallback_witness :
    MessageBuilderS.resolvedMap
      { message_build_lang := "en", message_logic := [("en", [("a", "x")])] }
      "en" "en" = some [("a", "x")] ∧
    List.lookup (formatKey "b") [("a", "x")] = none ∧
    MessageBuilderS.get
      { message_build_lang := "en", message_logic := [("en", [("a", "x")])] }
      "en" "b" "en" = "" :=
  ⟨rfl, by decide,
    (C10_message_get_fallback
      { message_build_lang := "en", message_logic := [("en", [("a", "x")])] }
      "en" "b" "en").1 [("a", "x")] rfl (by decide)⟩

/-- `MessageBuilder.error` returns the option list it was given in its
`params` field. -/
theorem msg_error_params (mb : MessageBuilderS) (dl es : String)
    (opts : JSVal) (lang : String) :
    (mb.error dl es opts lang).params = opts := rfl

/-- Projections of the envelope `ResponseBuilder` builds for the
engine's internal two-field error objects. -/
theorem RB_error_obj2 (a : ActionsS) (sys : SystemCtx) (lang code : String)
    (st : Int) (hst : st ≠ 0) (hcode : code ≠ "") :
    (a.ResponseBuilder (.obj [("error", .str code), ("status", .num st)]) sys lang).error
        = .str code ∧
    (a.ResponseBuilder (.obj [("error", .str code), ("status", .num st)]) sys lang).status
        = .num st ∧
    (a.ResponseBuilder (.obj [("error", .str code), ("status", .num st)])
        sys lang).response.status = .num st ∧
    (a.ResponseBuilder (.obj [("error", .str code), ("status", .num st)])
        sys lang).response.params = some (.arr []) := by
  simp [ActionsS.ResponseBuilder, jsIsError, JSVal.get, JSVal.truthy,
    JSVal.typeofObject, JSVal.isArray, List.lookup, hst, hcode, msg_error_params]

/-- Projections of the envelope for the engine's internal three-field
error objects (the 426 upgrade error, which carries `params`). -/
theorem RB_error_obj3 (a : ActionsS) (sys : SystemCtx) (lang code : String)
    (st : Int) (pv : JSVal) (hst : st ≠ 0) (hcode : code ≠ "")
    (hpv : pv.truthy = true) :
    (a.ResponseBuilder (.obj [("error", .str code), ("status", .num st),
        ("params", pv)]) sys lang).error = .str code ∧
    (a.ResponseBuilder (.obj [("error", .str code), ("status", .num st),
        ("params", pv)]) sys lang).status = .num st ∧
    (a.ResponseBuilder (.obj [("error", .str code), ("status", .num st),
        ("params", pv)]) sys lang).response.status = .num st ∧
    (a.ResponseBuilder (.obj [("error", .str code), ("status", .num st),
        ("params", pv)]) sys lang).response.params = some pv := by
  have hp2 := hpv
  simp only [JSVal.truthy] at hp2
  simp [ActionsS.ResponseBuilder, jsIsError, JSVal.get, JSVal.truthy,
    JSVal.typeofObject, JSVal.isArray, List.lookup, hst, hcode, hp2,
    msg_error_params]

/-- Claim C3: under the API context, a missing (or empty) client-version
header short-circuits with `system:client-version-required` / 400; a
present client version below `version_min` with the force-update flag
set short-circuits with `system:need-upgrade-client` / 426 carrying the
interpolation parameters `{min: version_min, now: version_now}`. -/
theorem C3_api_version_gate (a : ActionsS) (p : RegistryParams)
    (hcm : p.context_manager = some "api-action") :
    (hdrD p.system.headers "x-seishiro-client" = "" →
      ((a.SystemAction p).error = .str "system:client-version-required" ∧
       (a.SystemAction p).status = .num 400 ∧
       (a.SystemAction p).response.status = .num 400)) ∧
    (hdrD p.system.headers "x-seishiro-client" ≠ "" →
      a.policy.parsed_min = PolicyBuilder.parseVersion a.policy.version_min →
      PolicyBuilder.compare
        (PolicyBuilder.parseVersion (hdrD p.system.headers "x-seishiro-client"))
        (PolicyBuilder.parseVersion a.policy.version_min) < 0 →
      a.policy.version_forceupdate = true →
      ((a.SystemAction p).error = .str "system:need-upgrade-client" ∧
       (a.SystemAction p).status = .num 426 ∧
       (a.SystemAction p).response.status = .num 426 ∧
       (a.SystemAction p).response.params =
         some (.arr [.obj [("min", .str a.policy.version_min),
           ("now", .str a.policy.version_now)]]))) := by
  constructor
  · intro h
    have hred : a.SystemAction p =
        a.ResponseBuilder (.obj [("error", .str "system:client-version-required"),
          ("status", .num 400)]) p.system (activeLangOf p) := by
      unfold ActionsS.SystemAction
      simp [hcm, h]
    rw [hred]
    have hp := RB_error_obj2 a p.system (activeLangOf p)
      "system:client-version-required" 400 (by decide) (by decide)
    exact ⟨hp.1, hp.2.1, hp.2.2.1⟩
  · intro hne hparsed hlt hforce
    have hmin : (a.policy.version_info
        (hdrD p.system.headers "x-seishiro-client")).is_version_min = false := by
      simp only [PolicyBuilderS.version_info, hparsed, decide_eq_false_iff_not]
      omega
    have hupg : (a.policy.version_info
        (hdrD p.system.headers "x-seishiro-client")).info_upgrade = true := by
      simp [PolicyBuilderS.version_info, hforce]
    have hred : a.SystemAction p =
        a.ResponseBuilder (.obj [("error", .str "system:need-upgrade-client"),
          ("status", .num 426),
          ("params", .arr [.obj [("min", .str a.policy.version_min),
            ("now", .str a.policy.version_now)]])]) p.system (activeLangOf p) := by
      unfold ActionsS.SystemAction
      simp [hcm, hne, hmin, hupg]
    rw [hred]
    have hp := RB_error_obj3 a p.system (activeLangOf p)
      "system:need-upgrade-client" 426
      (.arr [.obj [("min", .str a.policy.version_min),
        ("now", .str a.policy.version_now)]]) (by decide) (by decide) rfl
    exact ⟨hp.1, hp.2.1, hp.2.2.1, hp.2.2.2⟩

/-- Witness for C3: the shared fixture dispatcher under the API context,
once with no client-version header (400 case) and once with client
version "1.0" below minimum "1.2" (426 case). -/
theorem C3_api_version_gate_witness :
    ((baseState.SystemAction
        { baseCtx "x" with context_manager := some "api-action" }).error =
      .str "system:client-version-required" ∧
     (baseState.SystemAction
        { baseCtx "x" with context_manager := some "api-action" }).status =
      .num 400) ∧
    ((baseState.SystemAction
        { system := { baseSys with headers := [("x-seishiro-client", "1.0")] },
          type := "x", context_manager := some "api-action",
          middleware := .raw (.obj []), data := .obj [] }).error =
      .str "system:need-upgrade-client" ∧
     (baseState.SystemAction
        { system := { baseSys with headers := [("x-seishiro-client", "1.0")] },
          type := "x", context_manager := some "api-action",
          middleware := .raw (.obj []), data := .obj [] }).response.params =
      some (.arr [.obj [("min", .str "1.2"), ("now", .str "1.4")]])) := by
  constructor
  · have h := (C3_api_version_gate baseState
      { baseCtx "x" with context_manager := some "api-action" } rfl).1 (by decide)
    exact ⟨h.1, h.2.1⟩
  · have h := (C3_api_version_gate baseState
      { system := { baseSys with headers := [("x-seishiro-client", "1.0")] },
        type := "x", context_manager := some "api-action",
        middleware := .raw (.obj []), data := .obj [] } rfl).2
      (by decide) (by decide) (by decide) (by decide)
    exact ⟨h.1, h.2.2.2⟩

/-- The API version gate of `SystemAction` does not fire: neither the
missing-client-version branch nor the forced-upgrade branch. -/
def apiGatePasses (a : ActionsS) (p : RegistryParams) : Prop :=
  ¬(p.context_manager.getD "system-action" = "api-action" ∧
    hdrD p.system.headers "x-seishiro-client" = "") ∧
  ¬(hdrD p.system.headers "x-seishiro-client" ≠ "" ∧
    p.context_manager.getD "system-action" = "api-action" ∧
    (!(a.policy.version_info
        (hdrD p.system.headers "x-seishiro-client")).is_version_min &&
      (a.policy.version_info
        (hdrD p.system.headers "x-seishiro-client")).info_upgrade) = true)

/-- Claim C2: whenever the registered controller — or the middleware of
a paired entry, or the controller after a successful middleware — throws
(or rejects), `SystemAction` returns the normalized envelope with error
`system:internal-server-error` and status 500.  (In this embedding every
entry point is a total function into `Envelope`, so no call propagates a
failure to its caller.) -/
theorem C2_handler_throw_yields_ise (a : ActionsS) (p : RegistryParams)
    (hgate : apiGatePasses a p)
    (hthrow :
      (∃ f, RegistryBuilder.get a.registry p.type = some (.single f) ∧
        f (handlerCtx p) = .error ()) ∨
      (∃ mw ctrl, RegistryBuilder.get a.registry p.type = some (.paired mw ctrl) ∧
        (mw (handlerCtx p) = .error () ∨
          (∃ v, mw (handlerCtx p) = .ok v ∧
            ctrl (pairedCtrlCtx a p v) = .error ())))) :
    (a.SystemAction p).error = .str "system:internal-server-error" ∧
    (a.SystemAction p).status = .num 500 ∧
    (a.SystemAction p).response.status = .num 500 := by
  have hred : a.SystemAction p =
      a.ResponseBuilder (.obj [("error", .str "system:internal-server-error"),
        ("status", .num 500)]) p.system (activeLangOf p) := by
    rcases hthrow with ⟨f, h1, h2⟩ | ⟨mw, ctrl, h1, h2⟩
    · simp only [ActionsS.SystemAction]
      rw [if_neg hgate.1, if_neg hgate.2, h1]
      simp [h2]
    · rcases h2 with h2 | ⟨v, h2, h3⟩
      · simp only [ActionsS.SystemAction]
        rw [if_neg hgate.1, if_neg hgate.2, h1]
        simp [h2]
      · simp only [ActionsS.SystemAction]
        rw [if_neg hgate.1, if_neg hgate.2, h1]
        simp [h2, h3]
  rw [hred]
  have hp := RB_error_obj2 a p.system (activeLangOf p)
    "system:internal-server-error" 500 (by decide) (by decide)
  exact ⟨hp.1, hp.2.1, hp.2.2.1⟩

/-- A fixture dispatcher whose only controller throws. -/
def throwingState : ActionsS :=
  { baseState with
    registry := [("boom", RegEntry.single (fun _ => Except.error ()))] }

/-- Witness for C2: dispatching the throwing controller yields the
internal-server-error envelope. -/
theorem C2_handler_throw_yields_ise_witness :
    apiGatePasses throwingState (baseCtx "boom") ∧
    ((throwingState.SystemAction (baseCtx "boom")).error =
        .str "system:internal-server-error" ∧
     (throwingState.SystemAction (baseCtx "boom")).status = .num 500 ∧
     (throwingState.SystemAction (baseCtx "boom")).response.status = .num 500) :=
  ⟨by constructor <;> simp [baseCtx, baseSys, hdrD],
    C2_handler_throw_yields_ise throwingState (baseCtx "boom")
      (by constructor <;> simp [baseCtx, baseSys, hdrD])
      (Or.inl ⟨fun _ => Except.error (), rfl, rfl⟩)⟩

/-- When a language header is present, the deny-branch language of the
protocol entry points agrees with the active language `SystemAction`
computes (without one they can differ: the deny branch runs
`extractLanguage` over `system.lang`, `SystemAction` does not). -/
theorem denyLang_eq_activeLang (p : RegistryParams)
    (h : jsOrStr (hdrD p.system.headers "x-seishiro-lang")
      (hdrD p.system.headers "accept-language") ≠ "") :
    ActionsS.denyBranchLang p = activeLangOf p := by
  unfold ActionsS.denyBranchLang activeLangOf jsOrStr
  by_cases h1 : hdrD p.system.headers "x-seishiro-lang" = ""
  · rw [jsOrStr] at h
    rw [if_pos h1] at h
    simp [h1, h]
  · simp [h1]

/-- The no-registry path of `SystemAction`: gates pass, lookup fails. -/
theorem SystemAction_no_registry (a : ActionsS) (p : RegistryParams)
    (hgate : apiGatePasses a p)
    (hreg : RegistryBuilder.get a.registry p.type = none) :
    a.SystemAction p =
      a.ResponseBuilder (.obj [("error", .str "system:no-registry"),
        ("status", .num 404)]) p.system (activeLangOf p) := by
  simp only [ActionsS.SystemAction]
  rw [if_neg hgate.1, if_neg hgate.2, hreg]

/-- Claim C1 (amended): a deny-listed key and an unregistered key yield
the identical `system:no-registry` / 404 envelope under the same request
context, provided a language header is present and — for the API
protocol — a client-version header is present and the forced-upgrade
gate does not fire.  (Without a client-version header the API protocol
answers `system:client-version-required` / 400 for the unregistered key
but `system:no-registry` / 404 for the deny-listed one; see the
counterexample.) -/
theorem C1_denied_matches_unregistered (a : ActionsS) (p : RegistryParams)
    (kd ku : String)
    (hlang : jsOrStr (hdrD p.system.headers "x-seishiro-lang")
      (hdrD p.system.headers "accept-language") ≠ "") :
    (a.policy.noaction_server.contains kd = true →
     a.policy.noaction_server.contains ku = false →
     RegistryBuilder.get a.registry ku = none →
     a.ServerAction { p with type := kd } = a.ServerAction { p with type := ku }) ∧
    (a.policy.noaction_api.contains kd = true →
     a.policy.noaction_api.contains ku = false →
     RegistryBuilder.get a.registry ku = none →
     hdrD p.system.headers "x-seishiro-client" ≠ "" →
     ((a.policy.version_info
        (hdrD p.system.headers "x-seishiro-client")).is_version_min = true ∨
       a.policy.version_forceupdate = false) →
     a.APIAction { p with type := kd } = a.APIAction { p with type := ku }) := by
  constructor
  · intro hd hu hreg
    have hL : a.ServerAction { p with type := kd } =
        a.ResponseBuilder (.obj [("error", .str "system:no-registry"),
          ("status", .num 404)]) p.system (ActionsS.denyBranchLang p) := by
      simp only [ActionsS.ServerAction]
      rw [if_pos hd]
      rfl
    have hgate : apiGatePasses a
        { p with type := ku, context_manager := some "server-action" } := by
      constructor <;> simp
    have hR : a.ServerAction { p with type := ku } =
        a.ResponseBuilder (.obj [("error", .str "system:no-registry"),
          ("status", .num 404)]) p.system (activeLangOf p) := by
      simp only [ActionsS.ServerAction]
      rw [if_neg (by rw [hu]; simp)]
      exact SystemAction_no_registry a _ hgate hreg
    rw [hL, hR, denyLang_eq_activeLang p hlang]
  · intro hd hu hreg hcv hnogate
    have hL : a.APIAction { p with type := kd } =
        a.ResponseBuilder (.obj [("error", .str "system:no-registry"),
          ("status", .num 404)]) p.system (ActionsS.denyBranchLang p) := by
      simp only [ActionsS.APIAction]
      rw [if_pos hd]
      rfl
    have hgate : apiGatePasses a
        { p with type := ku, context_manager := some "api-action" } := by
      constructor
      · simp [hcv]
      · rcases hnogate with hmin | hupg
        · simp [hmin]
        · simp [PolicyBuilderS.version_info, hupg]
    have hR : a.APIAction { p with type := ku } =
        a.ResponseBuilder (.obj [("error", .str "system:no-registry"),
          ("status", .num 404)]) p.system (activeLangOf p) := by
      simp only [ActionsS.APIAction]
      rw [if_neg (by rw [hu]; simp)]
      exact SystemAction_no_registry a _ hgate hreg
    rw [hL, hR, denyLang_eq_activeLang p hlang]

/-- A request context carrying a language header and a conforming client
version. -/
def c1Ctx : RegistryParams :=
  { system := { baseSys with
      headers := [("x-seishiro-lang", "en"), ("x-seishiro-client", "1.2")] },
    type := "", context_manager := none,
    middleware := .raw (.obj []), data := .obj [] }

/-- Witness for C1 on the shared fixture: the deny-listed keys and the
key "other" (absent from the registry) produce identical envelopes under
both protocols. -/
theorem C1_denied_matches_unregistered_witness :
    (jsOrStr (hdrD c1Ctx.system.headers "x-seishiro-lang")
       (hdrD c1Ctx.system.headers "accept-language") ≠ "") ∧
    baseState.ServerAction { c1Ctx with type := "srvblocked" } =
      baseState.ServerAction { c1Ctx with type := "other" } ∧
    baseState.APIAction { c1Ctx with type := "blocked" } =
      baseState.APIAction { c1Ctx with type := "other" } :=
  ⟨by decide,
    (C1_denied_matches_unregistered baseState c1Ctx "srvblocked" "other"
      (by decide)).1 (by decide) (by decide) rfl,
    (C1_denied_matches_unregistered baseState c1Ctx "blocked" "other"
      (by decide)).2 (by decide) (by decide) rfl (by decide)
      (Or.inl (by decide))⟩

/-- The error code of an envelope as a string (for separating concrete
envelopes). -/
def envErrorString (e : Envelope) : String :=
  match e.error with
  | .str s => s
  | _ => ""

/-- Claim C1 counterexample: under an API request carrying no
client-version header, the deny-listed key yields the
`system:no-registry` / 404 envelope while the unregistered key yields
`system:client-version-required` / 400 — the two envelopes are not
identical, contrary to the claim's "every request context including
API-protocol requests that carry no client-version header". -/
theorem C1_counterexample :
    (baseState.APIAction (baseCtx "blocked")).error = .str "system:no-registry" ∧
    (baseState.APIAction (baseCtx "blocked")).status = .num 404 ∧
    (baseState.APIAction (baseCtx "other")).error =
      .str "system:client-version-required" ∧
    (baseState.APIAction (baseCtx "other")).status = .num 400 ∧
    baseState.APIAction (baseCtx "blocked") ≠ baseState.APIAction (baseCtx "other") := by
  refine ⟨rfl, rfl, rfl, rfl, fun h => ?_⟩
  have h2 := congrArg envErrorString h
  rw [show envErrorString (baseState.APIAction (baseCtx "blocked")) =
      "system:no-registry" from rfl,
    show envErrorString (baseState.APIAction (baseCtx "other")) =
      "system:client-version-required" from rfl] at h2
  exact absurd h2 (by decide)

/-- A hex digit below 16 decodes back to itself. -/
theorem hexVal_hexDigitChar {n : Nat} (h : n < 16) :
    hexVal (hexDigitChar n) = n := by
  interval_cases n <;> decide

/-- Hex decoding inverts `Buffer.toString("hex")` on byte lists. -/
theorem hexDecode_hexEncode (bs : List Nat) (h : ∀ b ∈ bs, b < 256) :
    hexDecode (hexEncodeBytes bs) = bs := by
  induction bs with
  | nil => rfl
  | cons b t ih =>
    have hb : b < 256 := h b (by simp)
    have ht : ∀ x ∈ t, x < 256 := fun x hx => h x (by simp [hx])
    have hdiv : b / 16 < 16 := Nat.div_lt_of_lt_mul (by omega)
    have hmod : b % 16 < 16 := Nat.mod_lt _ (by norm_num)
    simp only [hexDecode, hexEncodeBytes] at ih ⊢
    rw [List.flatMap_cons]
    show hexDecodePairs (hexDigitChar (b / 16) :: hexDigitChar (b % 16) ::
      t.flatMap _) = b :: t
    rw [hexDecodePairs, hexVal_hexDigitChar hdiv, hexVal_hexDigitChar hmod,
      Nat.div_add_mod]
    exact congrArg (b :: ·) (ih ht)

/-- Claim C9: on a cold cache, the manifest's `data` field decodes to the
16-byte IV followed by the AES-256-CTR ciphertext of the serialized
record — the first `iv_length` bytes of the decoded `data` equal the
decoded `iv` field, and only the remainder is the ciphertext. -/
theorem C9_manifest_iv_layout (a : ActionsS)
    (sha256 : String → List Nat)
    (encrypt : List Nat → List Nat → List Nat → List Nat) (ivKey : List Nat)
    (hcache : a.cache_book = none)
    (hivlen : ivKey.length = 16)
    (hiv : ∀ b ∈ ivKey, b < 256)
    (hct : ∀ b ∈ encrypt (sha256 (jsTrim a.policy.passkey)) ivKey
        (utf8Bytes (jsonOfBook a.buildRegistryPlain)), b < 256) :
    hexDecode ((a.BookRegistry sha256 encrypt ivKey).fst.data) =
      ivKey ++ encrypt (sha256 (jsTrim a.policy.passkey)) ivKey
        (utf8Bytes (jsonOfBook a.buildRegistryPlain)) ∧
    (hexDecode ((a.BookRegistry sha256 encrypt ivKey).fst.data)).take
        ((a.BookRegistry sha256 encrypt ivKey).fst.iv_length) =
      hexDecode ((a.BookRegistry sha256 encrypt ivKey).fst.iv) ∧
    (hexDecode ((a.BookRegistry sha256 encrypt ivKey).fst.data)).drop
        ((a.BookRegistry sha256 encrypt ivKey).fst.iv_length) =
      encrypt (sha256 (jsTrim a.policy.passkey)) ivKey
        (utf8Bytes (jsonOfBook a.buildRegistryPlain)) := by
  have hbook : (a.BookRegistry sha256 encrypt ivKey).fst =
      { iv_length := 16, type_base := "hex", iv := hexEncodeBytes ivKey,
        data := hexEncodeBytes (ivKey ++ encrypt (sha256 (jsTrim a.policy.passkey))
          ivKey (utf8Bytes (jsonOfBook a.buildRegistryPlain))) } := by
    simp [ActionsS.BookRegistry, hcache]
  have hall : ∀ b ∈ ivKey ++ encrypt (sha256 (jsTrim a.policy.passkey)) ivKey
      (utf8Bytes (jsonOfBook a.buildRegistryPlain)), b < 256 := by
    intro b hb
    rcases List.mem_append.mp hb with h | h
    · exact hiv b h
    · exact hct b h
  rw [hbook]
  show hexDecode (hexEncodeBytes _) = _ ∧
    (hexDecode (hexEncodeBytes _)).take 16 = hexDecode (hexEncodeBytes ivKey) ∧
    (hexDecode (hexEncodeBytes _)).drop 16 = _
  rw [hexDecode_hexEncode _ hall, hexDecode_hexEncode _ hiv]
  exact ⟨rfl, List.take_left' hivlen, List.drop_left' hivlen⟩

/-- Witness for C9 on the shared fixture with the identity keystream and
a zero IV. -/
theorem C9_manifest_iv_layout_witness :
    (baseState.cache_book = none ∧ (List.replicate 16 0).length = 16 ∧
      (∀ b ∈ List.replicate 16 0, b < 256) ∧
      (∀ b ∈ (fun (_ : List Nat) (_ : List Nat) (pt : List Nat) => pt)
          ((fun (_ : String) => List.replicate 32 0) (jsTrim baseState.policy.passkey))
          (List.replicate 16 0)
          (utf8Bytes (jsonOfBook baseState.buildRegistryPlain)), b < 256)) ∧
    (hexDecode ((baseState.BookRegistry (fun _ => List.replicate 32 0)
        (fun _ _ pt => pt) (List.replicate 16 0)).fst.data)).take
      ((baseState.BookRegistry (fun _ => List.replicate 32 0)
        (fun _ _ pt => pt) (List.replicate 16 0)).fst.iv_length) =
      hexDecode ((baseState.BookRegistry (fun _ => List.replicate 32 0)
        (fun _ _ pt => pt) (List.replicate 16 0)).fst.iv) :=
  ⟨⟨rfl, by decide, by decide, by decide⟩,
    (C9_manifest_iv_layout baseState (fun _ => List.replicate 32 0)
      (fun _ _ pt => pt) (List.replicate 16 0) rfl (by decide) (by decide)
      (by decide)).2.1⟩

/-- A dispatcher with one registered key and an empty API deny-list. -/
def c6State : ActionsS :=
  { baseState with
    registry := [("a", RegEntry.single (fun _ => Except.ok (.obj [("data", .obj [])])))],
    policy := { basePolicy with noaction_api := [] } }

/-- Claim C6 (code bug, evaluated at the failing input): the registry
holds key "a" and nothing is deny-listed, yet the manifest's `listkey`
is empty — `BookRegistry` runs `Object.keys` over the ES `Map` returned
by `registry.apply()`, which yields no keys (see `objectKeysOfMap`).
The caching portion of the claim does hold: a second call, even after
the registry is emptied, returns the first manifest unchanged. -/
theorem C6_listkey_always_empty_bug :
    c6State.registry.map Prod.fst = ["a"] ∧
    c6State.policy.noaction_api = [] ∧
    (c6State.buildRegistryPlain).listkey = [] ∧
    (ActionsS.BookRegistry
      { (c6State.BookRegistry (fun _ => List.replicate 32 0) (fun _ _ pt => pt)
          (List.replicate 16 0)).snd with registry := [] }
      (fun _ => List.replicate 32 0) (fun _ _ pt => pt)
      (List.replicate 16 1)).fst =
      (c6State.BookRegistry (fun _ => List.replicate 32 0) (fun _ _ pt => pt)
        (List.replicate 16 0)).fst :=
  ⟨rfl, rfl, rfl, rfl⟩
